import Mathlib

/-!
Shallow embedding of the authentication and token-lifecycle subsystem of
the `cornerstone` backend (src/backend/src/auth.rs, error.rs,
extractors.rs, common/src/lib.rs), together with theorems settling the
frozen claims about it.

Modelling conventions:
* Database tables are lists of rows; SQL statements become list
  operations (`filter`, `find?`, upsert).
* The sqlx transaction in `issue_tokens` rolls back when dropped before
  `commit`, so a failed transaction is modelled by returning the error
  alone: the caller keeps the unchanged store.
* Cryptographic primitives are oracles passed as parameters: `sha`
  abstracts SHA-256 hex encoding, `bcryptVerify` abstracts
  `bcrypt::verify` (returning `none` on a primitive failure), and the
  per-call `IssueEnv` carries the freshly sampled nonce and raw refresh
  token plus failure-injection flags for the signing primitive and for
  each statement of the rotation transaction.
* A JWT is modelled symbolically as its claims paired with the secret
  used at signing.
-/

namespace Cornerstone

/-- The backend error type (`AppError` in src/backend/src/error.rs). -/
inductive AppError where
  | InternalServerError (msg : String)
  | DatabaseError
  | JwtError
  | PasswordError
  | Conflict (msg : String)
  | Unauthorized
  | NotFound
  | ValidationError
deriving DecidableEq, Repr

/-- The HTTP status code produced by `AppError::into_response`
(src/backend/src/error.rs, lines 39-79). Note that `ValidationError` is
mapped to `StatusCode::BAD_REQUEST`, i.e. 400. -/
def AppError.statusCode : AppError → Nat
  | .InternalServerError _ => 500
  | .DatabaseError => 500
  | .JwtError => 401
  | .PasswordError => 401
  | .Conflict _ => 409
  | .Unauthorized => 401
  | .NotFound => 404
  | .ValidationError => 400

/-- A row of the `users` table (`User` in auth.rs). -/
structure User where
  id : Int
  email : String
  password_hash : String
deriving DecidableEq, Repr

/-- A row of the `refresh_tokens` table (the columns used by auth.rs:
`user_id`, `token_hash`, `expires_at`). -/
structure RefreshTokenRow where
  user_id : Int
  token_hash : String
  expires_at : Int
deriving DecidableEq, Repr

/-- The durable store: the two tables touched by the auth subsystem. -/
structure Store where
  users : List User
  refresh_tokens : List RefreshTokenRow
deriving DecidableEq, Repr

/-- JWT claims (`Claims` in auth.rs): subject, expiry, nonce. -/
structure Claims where
  sub : String
  exp : Int
  nonce : String
deriving DecidableEq, Repr

/-- Symbolic model of an encoded JWT: the claims together with the
secret that signed them. `jsonwebtoken::encode` becomes pairing, and
decoding checks that the verifying secret matches `signedWith`. -/
structure Jwt where
  claims : Claims
  signedWith : String
deriving DecidableEq, Repr

/-- `LoginResponse` (common/src/lib.rs): the token pair returned to the
caller. -/
structure LoginResponse where
  access_token : Jwt
  refresh_token : String
deriving DecidableEq, Repr

/-- `Credentials` (common/src/lib.rs). -/
structure Credentials where
  email : String
  password : String
deriving DecidableEq, Repr

/-- The resolved identity inserted into request extensions
(`AuthUser` in src/backend/src/extractors.rs). -/
structure AuthUser where
  id : Int
  email : String
deriving DecidableEq, Repr

/-- `JwtConfig` (src/backend/src/config.rs): the signing secret and the
two TTLs, carried here already converted to the time unit of `now`. -/
structure JwtConfig where
  secret : String
  access_token_expires_minutes : Int
  refresh_token_expires_days : Int
deriving DecidableEq, Repr

/-- Modelled from the spec: the `validator` crate implementing
`#[validate(email)]` is not part of this repository; a valid email is
modelled as exactly one `@` separating a non-empty user part from a
non-empty domain part. -/
def validEmail (e : String) : Bool :=
  let cs := e.toList
  decide (cs.count '@' = 1) && !(cs.head? == some '@') && !(cs.getLast? == some '@')

/-- Field validation of `Credentials` (common/src/lib.rs):
`#[validate(email)]` on `email` and `#[validate(length(min = 8))]` on
`password`. -/
def Credentials.valid (c : Credentials) : Bool :=
  validEmail c.email && decide (8 ≤ c.password.length)

/-- `DELETE FROM refresh_tokens WHERE token_hash = $1`. -/
def deleteByHash (h : String) (rows : List RefreshTokenRow) : List RefreshTokenRow :=
  rows.filter (fun r => decide (r.token_hash ≠ h))

/-- `DELETE FROM refresh_tokens WHERE user_id = $1` (logout). -/
def deleteByUser (uid : Int) (rows : List RefreshTokenRow) : List RefreshTokenRow :=
  rows.filter (fun r => decide (r.user_id ≠ uid))

/-- `INSERT INTO refresh_tokens (user_id, token_hash, expires_at) VALUES ...
ON CONFLICT(user_id) DO UPDATE SET token_hash = excluded.token_hash,
expires_at = excluded.expires_at` (auth.rs, lines 114-122): if a row for
`uid` exists it is updated in place, otherwise a new row is inserted. -/
def upsertSession (uid : Int) (h : String) (e : Int) (rows : List RefreshTokenRow) :
    List RefreshTokenRow :=
  if rows.any (fun r => decide (r.user_id = uid)) then
    rows.map (fun r => if r.user_id = uid then { r with token_hash := h, expires_at := e } else r)
  else
    ⟨uid, h, e⟩ :: rows

/-- `SELECT user_id, expires_at FROM refresh_tokens WHERE token_hash = $1`
with `fetch_optional` (auth.rs, lines 251-258). -/
def findByHash (h : String) (rows : List RefreshTokenRow) : Option RefreshTokenRow :=
  rows.find? (fun r => decide (r.token_hash = h))

/-- `SELECT ... FROM users WHERE email = $1` with `fetch_optional`. -/
def findUserByEmail (email : String) (users : List User) : Option User :=
  users.find? (fun u => decide (u.email = email))

/-- `SELECT ... FROM users WHERE id = $1` with `fetch_optional`. -/
def findUserById (uid : Int) (users : List User) : Option User :=
  users.find? (fun u => decide (u.id = uid))

/-- Failure injection for the statements of the rotation transaction in
`issue_tokens` (auth.rs, lines 101-124): `begin`, the conditional
`DELETE`, the upsert `INSERT`, and `commit`. A sqlx transaction dropped
before `commit` rolls back, so any failure leaves the store unchanged. -/
structure TxOutcome where
  beginFails : Bool
  deleteFails : Bool
  insertFails : Bool
  commitFails : Bool
deriving DecidableEq, Repr

/-- The all-statements-succeed transaction outcome. -/
def TxOutcome.allOk : TxOutcome := ⟨false, false, false, false⟩

/-- The per-call environment of `issue_tokens`: the freshly sampled
nonce and raw refresh token, whether `jsonwebtoken::encode` fails, and
the transaction outcome. -/
structure IssueEnv where
  nonce : String
  refreshRaw : String
  encodeFails : Bool
  tx : TxOutcome
deriving DecidableEq, Repr

/-- `issue_tokens` (auth.rs, lines 62-131): build the access claims,
sign them (a failure of `encode` propagates through `?` as
`AppError::JwtError`), then inside one transaction delete the old token
hash (when given) and upsert the new session row. On any database
failure before commit the transaction rolls back and the error branch
carries no store: the caller keeps the unchanged store. -/
def issue_tokens (user_id : Int) (s : Store) (cfg : JwtConfig) (now : Int)
    (sha : String → String) (env : IssueEnv) (old_token_hash : Option String) :
    Except AppError (LoginResponse × Store) :=
  if env.encodeFails then .error .JwtError
  else if env.tx.beginFails then .error .DatabaseError
  else if env.tx.deleteFails && old_token_hash.isSome then .error .DatabaseError
  else if env.tx.insertFails then .error .DatabaseError
  else if env.tx.commitFails then .error .DatabaseError
  else
    .ok ({ access_token :=
             { claims := { sub := toString user_id,
                           exp := now + cfg.access_token_expires_minutes,
                           nonce := env.nonce },
               signedWith := cfg.secret },
           refresh_token := env.refreshRaw },
         { s with refresh_tokens :=
             (upsertSession user_id (sha env.refreshRaw)
               (now + cfg.refresh_token_expires_days)
               (match old_token_hash with
                | some h => deleteByHash h s.refresh_tokens
                | none => s.refresh_tokens)) })

/-- `register` (auth.rs, lines 147-191). `hashOutcome` is the result of
the bcrypt `hash` primitive: `none` models a hashing failure, mapped by
the code to `InternalServerError("Password hashing error")`. The 201
Created success is `Except.ok`. -/
def register (payload : Credentials) (s : Store) (hashOutcome : Option String)
    (newId : Int) : Except AppError Unit × Store :=
  if !payload.valid then (.error .ValidationError, s)
  else if (findUserByEmail payload.email s.users).isSome then
    (.error (.Conflict "User with this email already exists"), s)
  else
    match hashOutcome with
    | none => (.error (.InternalServerError "Password hashing error"), s)
    | some ph =>
        (.ok (), { s with users := { id := newId, email := payload.email,
                                     password_hash := ph } :: s.users })

/-- `login` (auth.rs, lines 205-229). `bcryptVerify` models
`bcrypt::verify`: `none` is a primitive failure (the code's `?` turns it
into `AppError::PasswordError`), `some b` a successful comparison with
result `b`. -/
def login (payload : Credentials) (s : Store)
    (bcryptVerify : String → String → Option Bool)
    (cfg : JwtConfig) (now : Int) (sha : String → String) (env : IssueEnv) :
    Except AppError LoginResponse × Store :=
  if !payload.valid then (.error .ValidationError, s)
  else
    match findUserByEmail payload.email s.users with
    | none => (.error .Unauthorized, s)
    | some user =>
      match bcryptVerify payload.password user.password_hash with
      | none => (.error .PasswordError, s)
      | some ok =>
        if !ok then (.error .Unauthorized, s)
        else
          match issue_tokens user.id s cfg now sha env none with
          | .error e => (.error e, s)
          | .ok (resp, s1) => (.ok resp, s1)

/-- `refresh` (auth.rs, lines 241-283): hash the presented raw token,
look its row up, reject unknown hashes; on an expired row perform a
best-effort delete whose result is discarded (`cleanupFails` injects its
failure) and reject; otherwise rotate through `issue_tokens` passing the
old hash for deletion. -/
def refresh (presented : String) (s : Store) (cfg : JwtConfig) (now : Int)
    (sha : String → String) (env : IssueEnv) (cleanupFails : Bool) :
    Except AppError LoginResponse × Store :=
  match findByHash (sha presented) s.refresh_tokens with
  | none => (.error .Unauthorized, s)
  | some record =>
    if record.expires_at < now then
      (.error .Unauthorized,
       { s with refresh_tokens :=
           if cleanupFails then s.refresh_tokens
           else deleteByHash (sha presented) s.refresh_tokens })
    else
      match issue_tokens record.user_id s cfg now sha env (some (sha presented)) with
      | .error e => (.error e, s)
      | .ok (resp, s1) => (.ok resp, s1)

/-- `logout` (auth.rs, lines 297-304): unconditionally delete the
refresh-token row of the authenticated user; 204 No Content is
`Except.ok`. -/
def logout (user : AuthUser) (s : Store) : Except AppError Unit × Store :=
  (.ok (), { s with refresh_tokens := deleteByUser user.id s.refresh_tokens })

/-- Modelled from the spec: `jsonwebtoken::decode` is not part of this
repository. Per the spec, verification "recomputes the signature over
the claims and rejects on mismatch or if expiry ≤ now, with zero
grace/leeway"; the middleware (auth.rs, lines 319-328) configures
`validate_exp = true` and `leeway = 0`. -/
def decodeJwt (secret : String) (now : Int) (t : Jwt) : Option Claims :=
  if t.signedWith = secret ∧ now < t.claims.exp then some t.claims else none

/-- Decimal digits to a number, `none` when the list is empty or holds a
non-digit. -/
def parseNatDigits (cs : List Char) : Option Nat :=
  if cs.isEmpty then none
  else if cs.all (fun c => c.isDigit) then
    some (cs.foldl (fun n c => n * 10 + (c.toNat - '0'.toNat)) 0)
  else none

/-- Modelled from the spec: the standard library's `str::parse::<i64>`
used for the token subject (auth.rs, lines 330-334) is not part of this
repository; it accepts an optional sign followed by one or more decimal
digits. -/
def parseInt (s : String) : Option Int :=
  match s.toList with
  | '-' :: rest => (parseNatDigits rest).map (fun n => -(n : Int))
  | '+' :: rest => (parseNatDigits rest).map (fun n => (n : Int))
  | cs => (parseNatDigits cs).map (fun n => (n : Int))

/-- `auth_middleware` (auth.rs, lines 308-353): require a bearer token,
decode and verify it, parse the subject (a parse failure is an internal
invariant violation), then load the account. The second component counts
how many `users`-table loads were performed. -/
def auth_middleware (auth_header : Option Jwt) (s : Store) (secret : String)
    (now : Int) : Except AppError AuthUser × Nat :=
  match auth_header with
  | none => (.error .Unauthorized, 0)
  | some token =>
    match decodeJwt secret now token with
    | none => (.error .Unauthorized, 0)
    | some claims =>
      match parseInt claims.sub with
      | none => (.error (.InternalServerError "Invalid user ID in token"), 0)
      | some user_id =>
        match findUserById user_id s.users with
        | none => (.error .Unauthorized, 1)
        | some user => (.ok { id := user.id, email := user.email }, 1)

/-- `AuthUser::from_request_parts` (src/backend/src/extractors.rs, lines
21-52): the extractor behind every handler parameter `user: AuthUser`.
It re-extracts the bearer token, re-decodes it (through
`Validation::default()`; the decode itself is the spec-modelled
`decodeJwt`), re-parses the subject, and performs its own
`SELECT ... FROM users WHERE id = ?` — it never reads the `AuthUser`
that the middleware stored in the request extensions. The second
component counts the `users`-table loads this extractor performs. -/
def from_request_parts (auth_header : Option Jwt) (s : Store) (secret : String)
    (now : Int) : Except AppError AuthUser × Nat :=
  match auth_header with
  | none => (.error .Unauthorized, 0)
  | some token =>
    match decodeJwt secret now token with
    | none => (.error .Unauthorized, 0)
    | some claims =>
      match parseInt claims.sub with
      | none => (.error (.InternalServerError "Invalid user ID in token"), 0)
      | some user_id =>
        match findUserById user_id s.users with
        | none => (.error .Unauthorized, 1)
        | some user => (.ok { id := user.id, email := user.email }, 1)

/-- A protected request as composed in web_server.rs: `auth_middleware`
runs first (`route_layer`, web_server.rs lines 132-142); if it rejects,
the handler never runs. If it succeeds, the handler's `user : AuthUser`
parameter (e.g. web_server.rs lines 222, 281, 330) re-runs
`from_request_parts` on the same request. The second component counts
the total `users`-table loads performed for the request. -/
def protected_request (auth_header : Option Jwt) (s : Store) (secret : String)
    (now : Int) : Except AppError AuthUser × Nat :=
  match auth_middleware auth_header s secret now with
  | (.error e, n) => (.error e, n)
  | (.ok _, n) =>
    match from_request_parts auth_header s secret now with
    | (.error e, m) => (.error e, n + m)
    | (.ok user, m) => (.ok user, n + m)

/-- The one-live-session invariant: no two refresh-token rows share an
account id. -/
def atMostOnePerAccount (rows : List RefreshTokenRow) : Prop :=
  rows.Pairwise (fun a b => a.user_id ≠ b.user_id)

instance (rows : List RefreshTokenRow) : Decidable (atMostOnePerAccount rows) := by
  unfold atMostOnePerAccount
  exact List.instDecidablePairwise rows

/-- The refresh-token rows belonging to one account. -/
def rowsFor (uid : Int) (rows : List RefreshTokenRow) : List RefreshTokenRow :=
  rows.filter (fun r => decide (r.user_id = uid))

example : validEmail "a@x.com" = true := by decide

example : (Credentials.mk "a@x.com" "short").valid = false := by decide

/-! ### Helper lemmas about the table operations -/

theorem mem_upsertSession {uid : Int} {h : String} {e : Int}
    {rows : List RefreshTokenRow} {r : RefreshTokenRow}
    (hr : r ∈ upsertSession uid h e rows) :
    r = ⟨uid, h, e⟩ ∨ (r ∈ rows ∧ r.user_id ≠ uid) := by
  unfold upsertSession at hr
  by_cases hany : rows.any (fun r => decide (r.user_id = uid)) = true
  · rw [if_pos hany] at hr
    rcases List.mem_map.mp hr with ⟨a, ha, rfl⟩
    by_cases hu : a.user_id = uid
    · left
      obtain ⟨au, ah, ae⟩ := a
      simp only at hu
      simp [hu]
    · right
      simp only [if_neg hu]
      exact ⟨ha, hu⟩
  · rw [if_neg hany] at hr
    rcases List.mem_cons.mp hr with h1 | h1
    · left; exact h1
    · right
      refine ⟨h1, ?_⟩
      simp only [List.any_eq_true, decide_eq_true_eq, not_exists, not_and] at hany
      exact hany r h1

theorem mem_deleteByHash {h : String} {rows : List RefreshTokenRow}
    {r : RefreshTokenRow} :
    r ∈ deleteByHash h rows ↔ r ∈ rows ∧ r.token_hash ≠ h := by
  simp [deleteByHash, List.mem_filter]

theorem findByHash_eq_none {h : String} {rows : List RefreshTokenRow} :
    findByHash h rows = none ↔ ∀ r ∈ rows, r.token_hash ≠ h := by
  simp [findByHash, List.find?_eq_none]

/-- After a rotation (delete the old hash, upsert a row carrying the new
hash), the old hash no longer appears anywhere in the table, provided
the new hash differs from it. -/
theorem findByHash_after_rotation {uid : Int} {oldH newH : String} {e : Int}
    {rows : List RefreshTokenRow} (hne : newH ≠ oldH) :
    findByHash oldH (upsertSession uid newH e (deleteByHash oldH rows)) = none := by
  rw [findByHash_eq_none]
  intro r hr
  rcases mem_upsertSession hr with rfl | ⟨hr2, _⟩
  · exact hne
  · exact (mem_deleteByHash.mp hr2).2

theorem atMostOne_filter {p : RefreshTokenRow → Bool} {rows : List RefreshTokenRow}
    (hp : atMostOnePerAccount rows) : atMostOnePerAccount (rows.filter p) :=
  List.Pairwise.sublist (List.filter_sublist rows) hp

theorem atMostOne_upsert {uid : Int} {h : String} {e : Int}
    {rows : List RefreshTokenRow} (hp : atMostOnePerAccount rows) :
    atMostOnePerAccount (upsertSession uid h e rows) := by
  unfold upsertSession
  by_cases hany : rows.any (fun r => decide (r.user_id = uid)) = true
  · rw [if_pos hany]
    unfold atMostOnePerAccount at *
    rw [List.pairwise_map]
    have hid : ∀ x : RefreshTokenRow,
        (if x.user_id = uid then
          ({ x with token_hash := h, expires_at := e } : RefreshTokenRow)
        else x).user_id = x.user_id := by
      intro x
      by_cases hx : x.user_id = uid <;> simp [hx]
    exact hp.imp (fun {a b} hab => by simpa [hid a, hid b] using hab)
  · rw [if_neg hany]
    unfold atMostOnePerAccount at *
    refine List.Pairwise.cons ?_ hp
    intro b hb
    simp only [List.any_eq_true, decide_eq_true_eq, not_exists, not_and] at hany
    exact fun hc => hany b hb hc.symm

theorem countP_user_le_one {uid : Int} {rows : List RefreshTokenRow}
    (hp : atMostOnePerAccount rows) :
    rows.countP (fun r => decide (r.user_id = uid)) ≤ 1 := by
  induction rows with
  | nil => simp
  | cons a l ih =>
    rcases List.pairwise_cons.mp hp with ⟨ha, hl⟩
    by_cases hu : a.user_id = uid
    · rw [List.countP_cons_of_pos _ _ (by simp [hu])]
      have h0 : l.countP (fun r => decide (r.user_id = uid)) = 0 := by
        rw [List.countP_eq_zero]
        intro b hb
        simp only [decide_eq_true_eq]
        intro hbu
        exact ha b hb (by rw [hu, hbu])
      omega
    · rw [List.countP_cons_of_neg _ _ (by simp [hu])]
      exact ih hl

/-- Under the one-session invariant, an upsert for `uid` leaves exactly
one row for `uid`. -/
theorem rowsFor_upsert_self_length {uid : Int} {h : String} {e : Int}
    {rows : List RefreshTokenRow} (hp : atMostOnePerAccount rows) :
    (rowsFor uid (upsertSession uid h e rows)).length = 1 := by
  unfold rowsFor
  rw [← List.countP_eq_length_filter]
  unfold upsertSession
  by_cases hany : rows.any (fun r => decide (r.user_id = uid)) = true
  · rw [if_pos hany, List.countP_map]
    have heq : rows.countP
        ((fun r : RefreshTokenRow => decide (r.user_id = uid)) ∘
          (fun r : RefreshTokenRow =>
            if r.user_id = uid then { r with token_hash := h, expires_at := e } else r)) =
        rows.countP (fun r => decide (r.user_id = uid)) := by
      apply List.countP_congr
      intro a _
      by_cases hx : a.user_id = uid <;> simp [Function.comp, hx]
    rw [heq]
    have hpos : 0 < rows.countP (fun r => decide (r.user_id = uid)) := by
      rw [List.countP_pos_iff]
      simpa [List.any_eq_true] using hany
    have hle := @countP_user_le_one uid rows hp
    omega
  · rw [if_neg hany, List.countP_cons_of_pos _ _ (by simp)]
    have h0 : rows.countP (fun r => decide (r.user_id = uid)) = 0 := by
      rw [List.countP_eq_zero]
      intro b hb
      simp only [List.any_eq_true, decide_eq_true_eq, not_exists, not_and] at hany
      simpa using hany b hb
    omega

theorem filter_and_of_imp {α : Type} {p q : α → Bool} {l : List α}
    (h : ∀ a ∈ l, p a = true → q a = true) :
    (l.filter q).filter p = l.filter p := by
  rw [List.filter_filter]
  apply List.filter_congr
  intro a ha
  by_cases hpa : p a = true
  · simp [hpa, h a ha hpa]
  · simp only [Bool.not_eq_true] at hpa
    simp [hpa]

theorem filter_map_fix {l : List RefreshTokenRow}
    {f : RefreshTokenRow → RefreshTokenRow} {p : RefreshTokenRow → Bool}
    (hidp : ∀ a, p (f a) = p a) (hfix : ∀ a, p a = true → f a = a) :
    (l.map f).filter p = l.filter p := by
  induction l with
  | nil => rfl
  | cons a l ih =>
    rw [List.map_cons]
    by_cases hpa : p a = true
    · rw [List.filter_cons_of_pos (by rw [hidp a]; exact hpa),
        List.filter_cons_of_pos hpa, hfix a hpa, ih]
    · simp only [Bool.not_eq_true] at hpa
      rw [List.filter_cons_of_neg (by rw [hidp a, hpa]; simp),
        List.filter_cons_of_neg (by rw [hpa]; simp), ih]

/-- An upsert keyed by account `uid` does not change the rows of a
different account `B`. -/
theorem rowsFor_upsert_other {uid B : Int} {h : String} {e : Int}
    {rows : List RefreshTokenRow} (hBA : B ≠ uid) :
    rowsFor B (upsertSession uid h e rows) = rowsFor B rows := by
  unfold rowsFor upsertSession
  by_cases hany : rows.any (fun r => decide (r.user_id = uid)) = true
  · rw [if_pos hany]
    apply filter_map_fix
    · intro a
      by_cases hx : a.user_id = uid <;> simp [hx]
    · intro a hap
      simp only [decide_eq_true_eq] at hap
      rw [if_neg (by rw [hap]; exact hBA)]
  · rw [if_neg hany, List.filter_cons_of_neg
      (by simp only [decide_eq_true_eq]; exact fun hc => hBA hc.symm)]

/-- Deleting by a token hash that no row of account `B` carries does not
change the rows of account `B`. -/
theorem rowsFor_deleteByHash {B : Int} {hsh : String} {rows : List RefreshTokenRow}
    (hfr : ∀ r ∈ rows, r.user_id = B → r.token_hash ≠ hsh) :
    rowsFor B (deleteByHash hsh rows) = rowsFor B rows := by
  unfold rowsFor deleteByHash
  apply filter_and_of_imp
  intro a ha hap
  simp only [decide_eq_true_eq] at hap ⊢
  exact hfr a ha hap

/-- Deleting the rows of account `uid` does not change the rows of a
different account `B`. -/
theorem rowsFor_deleteByUser_other {B uid : Int} {rows : List RefreshTokenRow}
    (hne : B ≠ uid) :
    rowsFor B (deleteByUser uid rows) = rowsFor B rows := by
  unfold rowsFor deleteByUser
  apply filter_and_of_imp
  intro a ha hap
  simp only [decide_eq_true_eq] at hap ⊢
  rw [hap]
  exact hne

/-! ### Shape lemmas for the handlers -/

/-- A successful `issue_tokens` performed the whole transaction: the old
hash (when given) was deleted and the new session row upserted. -/
theorem issue_tokens_ok {uid : Int} {s : Store} {cfg : JwtConfig} {now : Int}
    {sha : String → String} {env : IssueEnv} {old : Option String}
    {r : LoginResponse} {s' : Store}
    (h : issue_tokens uid s cfg now sha env old = .ok (r, s')) :
    s'.users = s.users ∧ r.refresh_token = env.refreshRaw ∧
    s'.refresh_tokens = upsertSession uid (sha env.refreshRaw)
      (now + cfg.refresh_token_expires_days)
      (match old with
       | some hh => deleteByHash hh s.refresh_tokens
       | none => s.refresh_tokens) := by
  unfold issue_tokens at h
  split at h
  · cases h
  split at h
  · cases h
  split at h
  · cases h
  split at h
  · cases h
  split at h
  · cases h
  simp only [Except.ok.injEq, Prod.mk.injEq] at h
  obtain ⟨h1, h2⟩ := h
  subst h1
  subst h2
  cases old <;> exact ⟨rfl, rfl, rfl⟩

/-- Success equation for `issue_tokens` from the success of every
primitive. -/
theorem issue_tokens_eq {uid : Int} {s : Store} {cfg : JwtConfig} {now : Int}
    {sha : String → String} {env : IssueEnv} {old : Option String}
    (henc : env.encodeFails = false) (htx : env.tx = TxOutcome.allOk) :
    issue_tokens uid s cfg now sha env old =
      .ok ({ access_token :=
               { claims := { sub := toString uid,
                             exp := now + cfg.access_token_expires_minutes,
                             nonce := env.nonce },
                 signedWith := cfg.secret },
             refresh_token := env.refreshRaw },
           { s with refresh_tokens :=
               (upsertSession uid (sha env.refreshRaw)
                 (now + cfg.refresh_token_expires_days)
                 (match old with
                  | some h => deleteByHash h s.refresh_tokens
                  | none => s.refresh_tokens)) }) := by
  unfold issue_tokens
  rw [henc, htx]
  simp [TxOutcome.allOk]

/-- Unknown-hash rejection path of `refresh`. -/
theorem refresh_not_found {presented : String} {s : Store} {cfg : JwtConfig}
    {now : Int} {sha : String → String} {env : IssueEnv} {b : Bool}
    (h : findByHash (sha presented) s.refresh_tokens = none) :
    refresh presented s cfg now sha env b = (.error .Unauthorized, s) := by
  unfold refresh
  rw [h]

/-- Expired-row rejection path of `refresh`: best-effort delete (or not,
when the cleanup statement fails) and Unauthorized. -/
theorem refresh_expired_eq {presented : String} {s : Store} {cfg : JwtConfig}
    {now : Int} {sha : String → String} {env : IssueEnv} {b : Bool}
    {record : RefreshTokenRow}
    (hfind : findByHash (sha presented) s.refresh_tokens = some record)
    (hexp : record.expires_at < now) :
    refresh presented s cfg now sha env b =
      (.error .Unauthorized,
       { s with refresh_tokens :=
           if b then s.refresh_tokens
           else deleteByHash (sha presented) s.refresh_tokens }) := by
  unfold refresh
  rw [hfind]
  dsimp only
  rw [if_pos hexp]

/-- A successful `refresh` found an unexpired row and rotated it through
`issue_tokens`. -/
theorem refresh_ok {presented : String} {s : Store} {cfg : JwtConfig}
    {now : Int} {sha : String → String} {env : IssueEnv} {b : Bool}
    {r : LoginResponse} {s' : Store}
    (h : refresh presented s cfg now sha env b = (.ok r, s')) :
    ∃ record, findByHash (sha presented) s.refresh_tokens = some record ∧
      ¬ record.expires_at < now ∧
      s'.users = s.users ∧ r.refresh_token = env.refreshRaw ∧
      s'.refresh_tokens = upsertSession record.user_id (sha env.refreshRaw)
        (now + cfg.refresh_token_expires_days)
        (deleteByHash (sha presented) s.refresh_tokens) := by
  unfold refresh at h
  split at h
  · simp at h
  rename_i record hfind
  split at h
  · simp at h
  rename_i hexp
  split at h
  · simp at h
  rename_i p resp s1 hit
  simp only [Prod.mk.injEq, Except.ok.injEq] at h
  obtain ⟨h1, h2⟩ := h
  subst h1
  subst h2
  obtain ⟨hu, hrt, hrows⟩ := issue_tokens_ok hit
  exact ⟨record, hfind, hexp, hu, hrt, hrows⟩

/-- A successful `login` verified the credentials and upserted a fresh
session row for the account found by email, leaving `users` unchanged. -/
theorem login_ok {c : Credentials} {s : Store}
    {bc : String → String → Option Bool} {cfg : JwtConfig} {now : Int}
    {sha : String → String} {env : IssueEnv} {r : LoginResponse} {s' : Store}
    (h : login c s bc cfg now sha env = (.ok r, s')) :
    ∃ user, findUserByEmail c.email s.users = some user ∧
      s'.users = s.users ∧ r.refresh_token = env.refreshRaw ∧
      s'.refresh_tokens = upsertSession user.id (sha env.refreshRaw)
        (now + cfg.refresh_token_expires_days) s.refresh_tokens := by
  unfold login at h
  split at h
  · simp at h
  split at h
  · simp at h
  rename_i user hfind
  split at h
  · simp at h
  rename_i ok hbc
  split at h
  · simp at h
  split at h
  · simp at h
  rename_i p resp s1 hit
  simp only [Prod.mk.injEq, Except.ok.injEq] at h
  obtain ⟨h1, h2⟩ := h
  subst h1
  subst h2
  obtain ⟨hu, hrt, hrows⟩ := issue_tokens_ok hit
  exact ⟨user, hfind, hu, hrt, hrows⟩

/-- A transaction statement that fails before commit aborts
`issue_tokens` with a database error (the transaction rolls back). -/
theorem issue_tokens_tx_fail {uid : Int} {s : Store} {cfg : JwtConfig}
    {now : Int} {sha : String → String} {env : IssueEnv} {oldh : String}
    (henc : env.encodeFails = false) (htx : env.tx ≠ TxOutcome.allOk) :
    issue_tokens uid s cfg now sha env (some oldh) = .error .DatabaseError := by
  unfold issue_tokens
  rw [henc]
  cases h1 : env.tx.beginFails with
  | true => simp [h1]
  | false =>
    cases h2 : env.tx.deleteFails with
    | true => simp [h1, h2]
    | false =>
      cases h3 : env.tx.insertFails with
      | true => simp [h1, h2, h3]
      | false =>
        cases h4 : env.tx.commitFails with
        | true => simp [h1, h2, h3, h4]
        | false =>
          exfalso
          apply htx
          cases henvtx : env.tx with
          | mk a b c d =>
            rw [henvtx] at h1 h2 h3 h4
            simp only at h1 h2 h3 h4
            rw [TxOutcome.allOk, h1, h2, h3, h4]

/-- The store that `login` leaves behind is either unchanged or the
result of upserting a fresh session row for the account found by
email. -/
theorem login_store {c : Credentials} {s : Store}
    {bc : String → String → Option Bool} {cfg : JwtConfig} {now : Int}
    {sha : String → String} {env : IssueEnv} :
    (login c s bc cfg now sha env).2 = s ∨
    ∃ user, findUserByEmail c.email s.users = some user ∧
      (login c s bc cfg now sha env).2 =
        { s with refresh_tokens := (upsertSession user.id (sha env.refreshRaw)
            (now + cfg.refresh_token_expires_days) s.refresh_tokens) } := by
  unfold login
  split
  · left; rfl
  split
  · left; rfl
  rename_i user hfind
  split
  · left; rfl
  rename_i ok hbc
  split
  · left; rfl
  split
  · left; rfl
  rename_i p resp s1 hit
  right
  obtain ⟨hu, hrt, hrows⟩ := issue_tokens_ok hit
  refine ⟨user, hfind, ?_⟩
  obtain ⟨us, rt⟩ := s1
  simp only at hu hrows ⊢
  rw [Store.mk.injEq]
  exact ⟨hu, hrows⟩

/-- The store that `refresh` leaves behind is unchanged, or had the
presented hash deleted (expired-row cleanup), or is the result of the
rotation. -/
theorem refresh_store {p : String} {s : Store} {cfg : JwtConfig} {now : Int}
    {sha : String → String} {env : IssueEnv} {b : Bool} :
    (refresh p s cfg now sha env b).2 = s ∨
    (refresh p s cfg now sha env b).2 =
      { s with refresh_tokens := deleteByHash (sha p) s.refresh_tokens } ∨
    ∃ record, findByHash (sha p) s.refresh_tokens = some record ∧
      (refresh p s cfg now sha env b).2 =
        { s with refresh_tokens := (upsertSession record.user_id (sha env.refreshRaw)
            (now + cfg.refresh_token_expires_days)
            (deleteByHash (sha p) s.refresh_tokens)) } := by
  unfold refresh
  split
  · left; rfl
  rename_i record hfind
  split
  · cases b with
    | true => left; simp
    | false => right; left; simp
  split
  · left; rfl
  rename_i q resp s1 hit
  right; right
  obtain ⟨hu, hrt, hrows⟩ := issue_tokens_ok hit
  refine ⟨record, hfind, ?_⟩
  obtain ⟨us, rt⟩ := s1
  simp only at hu hrows ⊢
  rw [Store.mk.injEq]
  exact ⟨hu, hrows⟩

instance exceptDecEq {ε α : Type} [DecidableEq ε] [DecidableEq α] :
    DecidableEq (Except ε α)
  | .error x, .error y =>
    if h : x = y then .isTrue (by rw [h])
    else .isFalse (fun hc => h (Except.error.inj hc))
  | .error _, .ok _ => .isFalse (fun hc => Except.noConfusion hc)
  | .ok _, .error _ => .isFalse (fun hc => Except.noConfusion hc)
  | .ok x, .ok y =>
    if h : x = y then .isTrue (by rw [h])
    else .isFalse (fun hc => h (Except.ok.inj hc))

/-! ### Concrete fixtures used by the witnesses -/

/-- A concrete stand-in for SHA-256 hex encoding. -/
def sha0 : String → String := fun x => String.append "h:" x

/-- A concrete JWT configuration. -/
def cfg0 : JwtConfig := ⟨"secret", 15, 7⟩

/-- A fully successful issuance environment. -/
def env0 : IssueEnv := ⟨"nonce0", "raw0", false, TxOutcome.allOk⟩

/-- A second fully successful issuance environment, with a distinct raw
refresh token. -/
def env1 : IssueEnv := ⟨"nonce1", "raw1", false, TxOutcome.allOk⟩

/-- A concrete account. -/
def user1 : User := ⟨1, "a@x.com", "pwhash1"⟩

/-- A live refresh-token row for `user1` whose raw token is `"tok1"`. -/
def row1 : RefreshTokenRow := ⟨1, sha0 "tok1", 100⟩

/-- A store with one account and one live session. -/
def store1 : Store := ⟨[user1], [row1]⟩

/-- A store whose only session row is already expired at time 50. -/
def store1e : Store := ⟨[user1], [⟨1, sha0 "tok1", 10⟩]⟩

/-- The response of the successful refresh in the C1 witness. -/
def resp1 : LoginResponse :=
  { access_token := { claims := { sub := "1", exp := 65, nonce := "nonce0" },
                      signedWith := "secret" },
    refresh_token := "raw0" }

/-- The store after the successful refresh in the C1 witness. -/
def store1r : Store := ⟨[user1], [⟨1, sha0 "raw0", 57⟩]⟩

/-! ### Claims -/

/-- C1: after one successful `refresh` with a token's raw value, the
stored hash of that token has been deleted by the rotation, so any
subsequent `refresh` presenting the identical raw value returns
Unauthorized (provided the freshly generated token hashes differently,
the crypto freshness assumption). -/
theorem claim_C1 (presented : String) (s : Store) (cfg : JwtConfig) (now : Int)
    (sha : String → String) (env : IssueEnv) (b : Bool) (r : LoginResponse)
    (s' : Store)
    (hfresh : sha env.refreshRaw ≠ sha presented)
    (hok : refresh presented s cfg now sha env b = (.ok r, s')) :
    findByHash (sha presented) s'.refresh_tokens = none ∧
    ∀ (now2 : Int) (env2 : IssueEnv) (b2 : Bool),
      refresh presented s' cfg now2 sha env2 b2 = (.error .Unauthorized, s') := by
  obtain ⟨record, hfind, hexp, hu, hrt, hrows⟩ := refresh_ok hok
  have hnone : findByHash (sha presented) s'.refresh_tokens = none := by
    rw [hrows]
    exact findByHash_after_rotation hfresh
  exact ⟨hnone, fun now2 env2 b2 => refresh_not_found hnone⟩

/-- C1 witness: a concrete successful rotation followed by a rejected
replay. -/
theorem claim_C1_witness :
    sha0 env0.refreshRaw ≠ sha0 "tok1" ∧
    refresh "tok1" store1 cfg0 50 sha0 env0 false = (.ok resp1, store1r) ∧
    findByHash (sha0 "tok1") store1r.refresh_tokens = none ∧
    refresh "tok1" store1r cfg0 99 sha0 env1 true =
      (.error .Unauthorized, store1r) :=
  have h1 : sha0 env0.refreshRaw ≠ sha0 "tok1" := by decide
  have h2 : refresh "tok1" store1 cfg0 50 sha0 env0 false = (.ok resp1, store1r) := by
    decide
  ⟨h1, h2, (claim_C1 "tok1" store1 cfg0 50 sha0 env0 false resp1 store1r h1 h2).1,
    (claim_C1 "tok1" store1 cfg0 50 sha0 env0 false resp1 store1r h1 h2).2 99 env1 true⟩

/-- C3: rotation is transactional. If any statement of the rotation
transaction fails before commit, `refresh` returns a database error and
the store is unchanged (in particular the old token's row still exists);
and two refresh calls presenting the same token cannot both succeed: the
store a successful refresh leaves behind makes a second presentation of
the same raw token fail. -/
theorem claim_C3 :
    (∀ (presented : String) (s : Store) (cfg : JwtConfig) (now : Int)
       (sha : String → String) (env : IssueEnv) (b : Bool)
       (record : RefreshTokenRow),
       findByHash (sha presented) s.refresh_tokens = some record →
       ¬ record.expires_at < now →
       env.encodeFails = false →
       env.tx ≠ TxOutcome.allOk →
       refresh presented s cfg now sha env b = (.error .DatabaseError, s)) ∧
    (∀ (presented : String) (s : Store) (cfg : JwtConfig) (now : Int)
       (sha : String → String) (env : IssueEnv) (b : Bool)
       (r : LoginResponse) (s' : Store),
       sha env.refreshRaw ≠ sha presented →
       refresh presented s cfg now sha env b = (.ok r, s') →
       ∀ (now2 : Int) (env2 : IssueEnv) (b2 : Bool) (r2 : LoginResponse),
         (refresh presented s' cfg now2 sha env2 b2).1 ≠ .ok r2) := by
  constructor
  · intro presented s cfg now sha env b record hfind hexp henc htx
    unfold refresh
    rw [hfind]
    dsimp only
    rw [if_neg hexp, issue_tokens_tx_fail henc htx]
  · intro presented s cfg now sha env b r s' hfresh hok now2 env2 b2 r2
    obtain ⟨record, hfind, hexp, hu, hrt, hrows⟩ := refresh_ok hok
    have hnone : findByHash (sha presented) s'.refresh_tokens = none := by
      rw [hrows]
      exact findByHash_after_rotation hfresh
    rw [refresh_not_found hnone]
    simp

/-- C3 witness: a concrete failing transaction leaves the store
unchanged, and a concrete successful rotation forbids a second
success. -/
theorem claim_C3_witness :
    refresh "tok1" store1 cfg0 50 sha0 ⟨"n", "r", false, ⟨false, false, true, false⟩⟩
      false = (.error .DatabaseError, store1) ∧
    (refresh "tok1" store1r cfg0 99 sha0 env1 false).1 ≠ .ok resp1 :=
  have h1 : sha0 env0.refreshRaw ≠ sha0 "tok1" := by decide
  have h2 : refresh "tok1" store1 cfg0 50 sha0 env0 false = (.ok resp1, store1r) := by
    decide
  ⟨claim_C3.1 "tok1" store1 cfg0 50 sha0 ⟨"n", "r", false, ⟨false, false, true, false⟩⟩
      false row1 (by decide) (by decide) (by decide) (by decide),
   claim_C3.2 "tok1" store1 cfg0 50 sha0 env0 false resp1 store1r h1 h2 99 env1
      false resp1⟩

/-- C5: a `refresh` whose stored row is expired performs a best-effort
delete whose failure never changes the Unauthorized response, and an
immediately repeated identical call (at any time not earlier) is also
Unauthorized, whether or not the cleanup succeeded. -/
theorem claim_C5 (presented : String) (s : Store) (cfg : JwtConfig)
    (now now2 : Int) (sha : String → String) (env env2 : IssueEnv)
    (b b2 : Bool) (record : RefreshTokenRow)
    (hfind : findByHash (sha presented) s.refresh_tokens = some record)
    (hexp : record.expires_at < now) (hmono : now ≤ now2) :
    refresh presented s cfg now sha env b =
      (.error .Unauthorized,
       { s with refresh_tokens :=
           if b then s.refresh_tokens
           else deleteByHash (sha presented) s.refresh_tokens }) ∧
    (refresh presented
        ({ s with refresh_tokens :=
             if b then s.refresh_tokens
             else deleteByHash (sha presented) s.refresh_tokens })
        cfg now2 sha env2 b2).1 = .error .Unauthorized := by
  refine ⟨refresh_expired_eq hfind hexp, ?_⟩
  cases b with
  | true =>
    have hexp2 : record.expires_at < now2 := lt_of_lt_of_le hexp hmono
    show (refresh presented s cfg now2 sha env2 b2).1 = .error .Unauthorized
    rw [refresh_expired_eq hfind hexp2]
  | false =>
    have hnone : findByHash (sha presented)
        (deleteByHash (sha presented) s.refresh_tokens) = none := by
      rw [findByHash_eq_none]
      intro r hr
      exact (mem_deleteByHash.mp hr).2
    show (refresh presented
        ({ s with refresh_tokens := deleteByHash (sha presented) s.refresh_tokens })
        cfg now2 sha env2 b2).1 = .error .Unauthorized
    rw [refresh_not_found hnone]

/-- C5 witness: a concrete expired row, exercised both with a failing
and with a succeeding cleanup. -/
theorem claim_C5_witness :
    findByHash (sha0 "tok1") store1e.refresh_tokens = some ⟨1, sha0 "tok1", 10⟩ ∧
    (⟨1, sha0 "tok1", 10⟩ : RefreshTokenRow).expires_at < 50 ∧
    refresh "tok1" store1e cfg0 50 sha0 env0 true =
      (.error .Unauthorized, store1e) ∧
    (refresh "tok1" store1e cfg0 60 sha0 env1 false).1 = .error .Unauthorized :=
  have hfind : findByHash (sha0 "tok1") store1e.refresh_tokens
      = some ⟨1, sha0 "tok1", 10⟩ := by decide
  have hexp : (⟨1, sha0 "tok1", 10⟩ : RefreshTokenRow).expires_at < 50 := by decide
  have h5 := claim_C5 "tok1" store1e cfg0 50 60 sha0 env0 env1 true false
    ⟨1, sha0 "tok1", 10⟩ hfind hexp (by decide)
  ⟨hfind, hexp, h5.1, h5.2⟩

/-- C2: every operation preserves the at-most-one-session-per-account
invariant; and two successive successful logins for the same account
leave exactly one refresh-session row for it, the refresh token issued
by the first login being rejected afterwards (under hash freshness of
the two generated tokens). -/
theorem claim_C2 :
    (∀ (c : Credentials) (s : Store) (bc : String → String → Option Bool)
       (cfg : JwtConfig) (now : Int) (sha : String → String) (env : IssueEnv),
       atMostOnePerAccount s.refresh_tokens →
       atMostOnePerAccount (login c s bc cfg now sha env).2.refresh_tokens) ∧
    (∀ (p : String) (s : Store) (cfg : JwtConfig) (now : Int)
       (sha : String → String) (env : IssueEnv) (b : Bool),
       atMostOnePerAccount s.refresh_tokens →
       atMostOnePerAccount (refresh p s cfg now sha env b).2.refresh_tokens) ∧
    (∀ (u : AuthUser) (s : Store),
       atMostOnePerAccount s.refresh_tokens →
       atMostOnePerAccount (logout u s).2.refresh_tokens) ∧
    (∀ (c : Credentials) (s : Store) (bc : String → String → Option Bool)
       (cfg : JwtConfig) (now now2 now3 : Int) (sha : String → String)
       (envA envB env3 : IssueEnv) (b3 : Bool)
       (r1 : LoginResponse) (s1 : Store) (r2 : LoginResponse) (s2 : Store)
       (user : User),
       atMostOnePerAccount s.refresh_tokens →
       findUserByEmail c.email s.users = some user →
       (∀ row ∈ s.refresh_tokens, row.token_hash ≠ sha envA.refreshRaw) →
       sha envA.refreshRaw ≠ sha envB.refreshRaw →
       login c s bc cfg now sha envA = (.ok r1, s1) →
       login c s1 bc cfg now2 sha envB = (.ok r2, s2) →
       (rowsFor user.id s2.refresh_tokens).length = 1 ∧
       refresh r1.refresh_token s2 cfg now3 sha env3 b3 =
         (.error .Unauthorized, s2)) := by
  refine ⟨?_, ?_, ?_, ?_⟩
  · intro c s bc cfg now sha env hp
    rcases @login_store c s bc cfg now sha env with hst | ⟨user, _, hst⟩
    · rw [hst]; exact hp
    · rw [hst]; exact atMostOne_upsert hp
  · intro p s cfg now sha env b hp
    rcases @refresh_store p s cfg now sha env b with hst | hst | ⟨record, _, hst⟩
    · rw [hst]; exact hp
    · rw [hst]; exact atMostOne_filter hp
    · rw [hst]; exact atMostOne_upsert (atMostOne_filter hp)
  · intro u s hp
    exact atMostOne_filter hp
  · intro c s bc cfg now now2 now3 sha envA envB env3 b3 r1 s1 r2 s2 user
      hp hfind hfresh hne12 h1 h2
    obtain ⟨userA, hfindA, husersA, hrtA, hrowsA⟩ := login_ok h1
    obtain ⟨userB, hfindB, husersB, hrtB, hrowsB⟩ := login_ok h2
    rw [hfind] at hfindA
    injection hfindA with hA
    subst hA
    rw [husersA, hfind] at hfindB
    injection hfindB with hB
    subst hB
    have hp1 : atMostOnePerAccount s1.refresh_tokens := by
      rw [hrowsA]; exact atMostOne_upsert hp
    constructor
    · rw [hrowsB]
      exact rowsFor_upsert_self_length hp1
    · have hnone : findByHash (sha r1.refresh_token) s2.refresh_tokens = none := by
        rw [hrtA, hrowsB, findByHash_eq_none]
        intro r hr
        rcases mem_upsertSession hr with rfl | ⟨hr1, hru⟩
        · exact fun hc => hne12 hc.symm
        · rw [hrowsA] at hr1
          rcases mem_upsertSession hr1 with rfl | ⟨hr0, _⟩
          · exact absurd rfl hru
          · exact hfresh r hr0
      exact refresh_not_found hnone

/-- C2 witness: the three preservation conjuncts and the double-login
scenario at concrete inputs. -/
theorem claim_C2_witness :
    atMostOnePerAccount store1.refresh_tokens ∧
    atMostOnePerAccount
      (login ⟨"a@x.com", "password123"⟩ store1 (fun _ _ => some true)
        cfg0 50 sha0 env0).2.refresh_tokens ∧
    atMostOnePerAccount
      (refresh "tok1" store1 cfg0 50 sha0 env0 false).2.refresh_tokens ∧
    atMostOnePerAccount (logout ⟨1, "a@x.com"⟩ store1).2.refresh_tokens ∧
    ((rowsFor user1.id
        (login ⟨"a@x.com", "password123"⟩
          (login ⟨"a@x.com", "password123"⟩ store1 (fun _ _ => some true)
            cfg0 50 sha0 env0).2
          (fun _ _ => some true) cfg0 51 sha0 env1).2.refresh_tokens).length = 1 ∧
      refresh "raw0"
        (login ⟨"a@x.com", "password123"⟩
          (login ⟨"a@x.com", "password123"⟩ store1 (fun _ _ => some true)
            cfg0 50 sha0 env0).2
          (fun _ _ => some true) cfg0 51 sha0 env1).2
        cfg0 52 sha0 env0 false =
        (.error .Unauthorized,
         (login ⟨"a@x.com", "password123"⟩
           (login ⟨"a@x.com", "password123"⟩ store1 (fun _ _ => some true)
             cfg0 50 sha0 env0).2
           (fun _ _ => some true) cfg0 51 sha0 env1).2)) :=
  have hp : atMostOnePerAccount store1.refresh_tokens := by decide
  have h1 : login ⟨"a@x.com", "password123"⟩ store1 (fun _ _ => some true)
      cfg0 50 sha0 env0 =
      ((login ⟨"a@x.com", "password123"⟩ store1 (fun _ _ => some true)
        cfg0 50 sha0 env0).1,
       (login ⟨"a@x.com", "password123"⟩ store1 (fun _ _ => some true)
        cfg0 50 sha0 env0).2) := rfl
  have h1ok : login ⟨"a@x.com", "password123"⟩ store1 (fun _ _ => some true)
      cfg0 50 sha0 env0 =
      (.ok ⟨⟨⟨"1", 65, "nonce0"⟩, "secret"⟩, "raw0"⟩,
       ⟨[user1], [⟨1, sha0 "raw0", 57⟩]⟩) := by decide
  have h2ok : login ⟨"a@x.com", "password123"⟩
      (⟨[user1], [⟨1, sha0 "raw0", 57⟩]⟩ : Store) (fun _ _ => some true)
      cfg0 51 sha0 env1 =
      (.ok ⟨⟨⟨"1", 66, "nonce1"⟩, "secret"⟩, "raw1"⟩,
       ⟨[user1], [⟨1, sha0 "raw1", 58⟩]⟩) := by decide
  have hmain := (claim_C2.2.2.2 ⟨"a@x.com", "password123"⟩ store1
    (fun _ _ => some true) cfg0 50 51 52 sha0 env0 env1 env0 false
    ⟨⟨⟨"1", 65, "nonce0"⟩, "secret"⟩, "raw0"⟩ ⟨[user1], [⟨1, sha0 "raw0", 57⟩]⟩
    ⟨⟨⟨"1", 66, "nonce1"⟩, "secret"⟩, "raw1"⟩ ⟨[user1], [⟨1, sha0 "raw1", 58⟩]⟩
    user1 hp (by decide) (by decide) (by decide) h1ok (by rw [h2ok]))
  ⟨hp,
   claim_C2.1 ⟨"a@x.com", "password123"⟩ store1 (fun _ _ => some true)
     cfg0 50 sha0 env0 hp,
   claim_C2.2.1 "tok1" store1 cfg0 50 sha0 env0 false hp,
   claim_C2.2.2.1 ⟨1, "a@x.com"⟩ store1 hp,
   by rw [h1ok, h2ok]; exact hmain⟩

/-- C10 (frame property): a login, refresh, or logout acting on account
A never changes the users table, and leaves the refresh-session rows of
every other account B untouched, every write being keyed by A's user id
or by the presented token's hash (the latter assumed not to collide with
B's stored hash). -/
theorem claim_C10 :
    (∀ (c : Credentials) (s : Store) (bc : String → String → Option Bool)
       (cfg : JwtConfig) (now : Int) (sha : String → String) (env : IssueEnv)
       (user : User) (B : Int),
       findUserByEmail c.email s.users = some user → B ≠ user.id →
       (login c s bc cfg now sha env).2.users = s.users ∧
       rowsFor B (login c s bc cfg now sha env).2.refresh_tokens =
         rowsFor B s.refresh_tokens) ∧
    (∀ (p : String) (s : Store) (cfg : JwtConfig) (now : Int)
       (sha : String → String) (env : IssueEnv) (b : Bool)
       (record : RefreshTokenRow) (B : Int),
       findByHash (sha p) s.refresh_tokens = some record → B ≠ record.user_id →
       (∀ row ∈ s.refresh_tokens, row.user_id = B → row.token_hash ≠ sha p) →
       (refresh p s cfg now sha env b).2.users = s.users ∧
       rowsFor B (refresh p s cfg now sha env b).2.refresh_tokens =
         rowsFor B s.refresh_tokens) ∧
    (∀ (u : AuthUser) (s : Store) (B : Int), B ≠ u.id →
       (logout u s).2.users = s.users ∧
       rowsFor B (logout u s).2.refresh_tokens = rowsFor B s.refresh_tokens) := by
  refine ⟨?_, ?_, ?_⟩
  · intro c s bc cfg now sha env user B hfind hB
    rcases @login_store c s bc cfg now sha env with hst | ⟨user', hfind', hst⟩
    · rw [hst]; exact ⟨rfl, rfl⟩
    · rw [hfind] at hfind'
      injection hfind' with hu
      subst hu
      rw [hst]
      exact ⟨rfl, rowsFor_upsert_other hB⟩
  · intro p s cfg now sha env b record B hfind hB hsep
    rcases @refresh_store p s cfg now sha env b with hst | hst | ⟨record', hfind', hst⟩
    · rw [hst]; exact ⟨rfl, rfl⟩
    · rw [hst]
      exact ⟨rfl, rowsFor_deleteByHash hsep⟩
    · rw [hfind] at hfind'
      injection hfind' with hr
      subst hr
      rw [hst]
      refine ⟨rfl, ?_⟩
      rw [show rowsFor B (upsertSession record.user_id (sha env.refreshRaw)
            (now + cfg.refresh_token_expires_days)
            (deleteByHash (sha p) s.refresh_tokens)) =
          rowsFor B (deleteByHash (sha p) s.refresh_tokens) from
        rowsFor_upsert_other hB]
      exact rowsFor_deleteByHash hsep
  · intro u s B hB
    exact ⟨rfl, rowsFor_deleteByUser_other hB⟩

/-- C10 witness: concrete two-account store, operations on account 1
leave account 2's rows and the users table unchanged. -/
theorem claim_C10_witness :
    ((login ⟨"a@x.com", "password123"⟩
        (⟨[user1, ⟨2, "b@x.com", "pwhash2"⟩],
          [row1, ⟨2, sha0 "tok2", 100⟩]⟩ : Store)
        (fun _ _ => some true) cfg0 50 sha0 env0).2.users =
      [user1, ⟨2, "b@x.com", "pwhash2"⟩] ∧
     rowsFor 2 (login ⟨"a@x.com", "password123"⟩
        (⟨[user1, ⟨2, "b@x.com", "pwhash2"⟩],
          [row1, ⟨2, sha0 "tok2", 100⟩]⟩ : Store)
        (fun _ _ => some true) cfg0 50 sha0 env0).2.refresh_tokens =
      [⟨2, sha0 "tok2", 100⟩]) ∧
    rowsFor 2 (refresh "tok1"
        (⟨[user1, ⟨2, "b@x.com", "pwhash2"⟩],
          [row1, ⟨2, sha0 "tok2", 100⟩]⟩ : Store)
        cfg0 50 sha0 env0 false).2.refresh_tokens = [⟨2, sha0 "tok2", 100⟩] ∧
    rowsFor 2 (logout ⟨1, "a@x.com"⟩
        (⟨[user1, ⟨2, "b@x.com", "pwhash2"⟩],
          [row1, ⟨2, sha0 "tok2", 100⟩]⟩ : Store)).2.refresh_tokens =
      [⟨2, sha0 "tok2", 100⟩] :=
  have base : rowsFor 2 ((⟨[user1, ⟨2, "b@x.com", "pwhash2"⟩],
      [row1, ⟨2, sha0 "tok2", 100⟩]⟩ : Store)).refresh_tokens =
      [⟨2, sha0 "tok2", 100⟩] := by decide
  have hlog := claim_C10.1 ⟨"a@x.com", "password123"⟩
    (⟨[user1, ⟨2, "b@x.com", "pwhash2"⟩], [row1, ⟨2, sha0 "tok2", 100⟩]⟩ : Store)
    (fun _ _ => some true) cfg0 50 sha0 env0 user1 2 (by decide) (by decide)
  have href := claim_C10.2.1 "tok1"
    (⟨[user1, ⟨2, "b@x.com", "pwhash2"⟩], [row1, ⟨2, sha0 "tok2", 100⟩]⟩ : Store)
    cfg0 50 sha0 env0 false row1 2 (by decide) (by decide) (by decide)
  have hout := claim_C10.2.2 ⟨1, "a@x.com"⟩
    (⟨[user1, ⟨2, "b@x.com", "pwhash2"⟩], [row1, ⟨2, sha0 "tok2", 100⟩]⟩ : Store)
    2 (by decide)
  ⟨⟨hlog.1, by rw [hlog.2]; exact base⟩,
   by rw [href.2]; exact base,
   by rw [hout.2]; exact base⟩

/-- C4: the middleware rejects with Unauthorized any access token whose
signature does not verify under the configured secret or whose expiry is
less than or equal to the current time (zero leeway). -/
theorem claim_C4 (t : Jwt) (s : Store) (secret : String) (now : Int)
    (hbad : t.signedWith ≠ secret ∨ t.claims.exp ≤ now) :
    (auth_middleware (some t) s secret now).1 = .error .Unauthorized := by
  have hdec : decodeJwt secret now t = none := by
    unfold decodeJwt
    rw [if_neg]
    rintro ⟨h1, h2⟩
    rcases hbad with hb | hb
    · exact hb h1
    · omega
  simp [auth_middleware, hdec]

/-- C4 witness: a token signed with the wrong key and a token expired at
exactly `now` are both rejected. -/
theorem claim_C4_witness :
    ((⟨⟨"1", 100, "n"⟩, "wrong"⟩ : Jwt).signedWith ≠ "secret" ∨
      (⟨⟨"1", 100, "n"⟩, "wrong"⟩ : Jwt).claims.exp ≤ 50) ∧
    (auth_middleware (some ⟨⟨"1", 100, "n"⟩, "wrong"⟩) store1 "secret" 50).1 =
      .error .Unauthorized ∧
    ((⟨⟨"1", 50, "n"⟩, "secret"⟩ : Jwt).signedWith ≠ "secret" ∨
      (⟨⟨"1", 50, "n"⟩, "secret"⟩ : Jwt).claims.exp ≤ 50) ∧
    (auth_middleware (some ⟨⟨"1", 50, "n"⟩, "secret"⟩) store1 "secret" 50).1 =
      .error .Unauthorized :=
  have hb1 : (⟨⟨"1", 100, "n"⟩, "wrong"⟩ : Jwt).signedWith ≠ "secret" ∨
      (⟨⟨"1", 100, "n"⟩, "wrong"⟩ : Jwt).claims.exp ≤ 50 := by
    left; decide
  have hb2 : (⟨⟨"1", 50, "n"⟩, "secret"⟩ : Jwt).signedWith ≠ "secret" ∨
      (⟨⟨"1", 50, "n"⟩, "secret"⟩ : Jwt).claims.exp ≤ 50 := by
    right; decide
  ⟨hb1, claim_C4 ⟨⟨"1", 100, "n"⟩, "wrong"⟩ store1 "secret" 50 hb1,
   hb2, claim_C4 ⟨⟨"1", 50, "n"⟩, "secret"⟩ store1 "secret" 50 hb2⟩

/-- C6: for a validated payload, `login` returns the very same generic
Unauthorized outcome whether the account does not exist or the account
exists but the password comparison fails, so the two causes are
indistinguishable to the caller. -/
theorem claim_C6 (c : Credentials) (s_a s_b : Store)
    (bc : String → String → Option Bool) (cfg : JwtConfig) (now : Int)
    (sha : String → String) (env : IssueEnv) (user : User)
    (hv : c.valid = true)
    (hnone : findUserByEmail c.email s_a.users = none)
    (hsome : findUserByEmail c.email s_b.users = some user)
    (hbc : bc c.password user.password_hash = some false) :
    login c s_a bc cfg now sha env = (.error .Unauthorized, s_a) ∧
    login c s_b bc cfg now sha env = (.error .Unauthorized, s_b) ∧
    (login c s_a bc cfg now sha env).1 = (login c s_b bc cfg now sha env).1 := by
  have ha : login c s_a bc cfg now sha env = (.error .Unauthorized, s_a) := by
    unfold login
    rw [hv, hnone]
    simp
  have hb : login c s_b bc cfg now sha env = (.error .Unauthorized, s_b) := by
    unfold login
    rw [hv, hsome]
    dsimp only
    rw [hbc]
    simp
  exact ⟨ha, hb, by rw [ha, hb]⟩

/-- C6 witness: an unknown email and a wrong password at concrete
stores produce the identical Unauthorized outcome. -/
theorem claim_C6_witness :
    (⟨"a@x.com", "password123"⟩ : Credentials).valid = true ∧
    findUserByEmail "a@x.com" (⟨[], []⟩ : Store).users = none ∧
    findUserByEmail "a@x.com" store1.users = some user1 ∧
    login ⟨"a@x.com", "password123"⟩ (⟨[], []⟩ : Store) (fun _ _ => some false)
      cfg0 50 sha0 env0 = (.error .Unauthorized, (⟨[], []⟩ : Store)) ∧
    login ⟨"a@x.com", "password123"⟩ store1 (fun _ _ => some false)
      cfg0 50 sha0 env0 = (.error .Unauthorized, store1) :=
  have h6 := claim_C6 ⟨"a@x.com", "password123"⟩ ⟨[], []⟩ store1
    (fun _ _ => some false) cfg0 50 sha0 env0 user1
    (by decide) (by decide) (by decide) (by decide)
  ⟨by decide, by decide, by decide, h6.1, h6.2.1⟩

/-- C7: on a protected request carrying a valid access token for an
existing account, the code loads the Account record twice, not exactly
once: `auth_middleware` loads it (auth.rs, lines 337-344) and the
handler's `user: AuthUser` parameter re-runs
`AuthUser::from_request_parts` (extractors.rs, lines 42-49) with a
second SELECT, the `AuthUser` the middleware inserts into the request
extensions (auth.rs, line 347) never being consumed. This contradicts
the claim — and the code's own comment "Fetch the user from the
database ONCE in the middleware". The absent-account half of the claim
does hold: the middleware rejects with Unauthorized before any handler
runs. -/
theorem claim_C7 :
    (protected_request (some ⟨⟨"1", 100, "n"⟩, "secret"⟩) store1 "secret" 50).2
      = 2 ∧
    (protected_request (some ⟨⟨"1", 100, "n"⟩, "secret"⟩) store1 "secret" 50).2
      ≠ 1 ∧
    (protected_request (some ⟨⟨"1", 100, "n"⟩, "secret"⟩) store1 "secret" 50).1
      = .ok ⟨1, "a@x.com"⟩ ∧
    (auth_middleware (some ⟨⟨"1", 100, "n"⟩, "secret"⟩) store1 "secret" 50).2
      = 1 ∧
    (from_request_parts (some ⟨⟨"1", 100, "n"⟩, "secret"⟩) store1 "secret" 50).2
      = 1 ∧
    (protected_request (some ⟨⟨"1", 100, "n"⟩, "secret"⟩) (⟨[], []⟩ : Store)
      "secret" 50).1 = .error .Unauthorized ∧
    (protected_request (some ⟨⟨"1", 100, "n"⟩, "secret"⟩) (⟨[], []⟩ : Store)
      "secret" 50).2 = 1 := by
  refine ⟨by decide, by decide, by decide, by decide, by decide, by decide,
    by decide⟩

/-- C8 counterexample: a failure of the token-signing primitive during
`login` yields `JwtError`, which `AppError::into_response` maps to
status 401 (the Unauthorized status), not to InternalServerError's 500 —
refuting the claim that every hashing/signing primitive failure
surfaces as InternalServerError. -/
theorem claim_C8_counterexample :
    (login ⟨"a@x.com", "password123"⟩ store1 (fun _ _ => some true) cfg0 50
      sha0 ⟨"n", "r", true, TxOutcome.allOk⟩).1 = .error .JwtError ∧
    AppError.statusCode .JwtError = 401 ∧
    AppError.statusCode .Unauthorized = 401 ∧
    AppError.statusCode .JwtError ≠ 500 := by
  refine ⟨by decide, rfl, rfl, by decide⟩

/-- C8 (amended): a bcrypt hashing failure during `register` yields
InternalServerError (500); but a signing failure during token issuance
yields `JwtError` and a bcrypt verification failure during `login`
yields `PasswordError`, both mapped to status 401 like Unauthorized. -/
theorem claim_C8_amended :
    (∀ (c : Credentials) (s : Store) (newId : Int),
       c.valid = true → findUserByEmail c.email s.users = none →
       register c s none newId =
         (.error (.InternalServerError "Password hashing error"), s) ∧
       AppError.statusCode (.InternalServerError "Password hashing error") = 500) ∧
    (∀ (c : Credentials) (s : Store) (bc : String → String → Option Bool)
       (cfg : JwtConfig) (now : Int) (sha : String → String) (env : IssueEnv)
       (user : User),
       c.valid = true → findUserByEmail c.email s.users = some user →
       bc c.password user.password_hash = some true → env.encodeFails = true →
       login c s bc cfg now sha env = (.error .JwtError, s) ∧
       AppError.statusCode .JwtError = 401) ∧
    (∀ (c : Credentials) (s : Store) (bc : String → String → Option Bool)
       (cfg : JwtConfig) (now : Int) (sha : String → String) (env : IssueEnv)
       (user : User),
       c.valid = true → findUserByEmail c.email s.users = some user →
       bc c.password user.password_hash = none →
       login c s bc cfg now sha env = (.error .PasswordError, s) ∧
       AppError.statusCode .PasswordError = 401) := by
  refine ⟨?_, ?_, ?_⟩
  · intro c s newId hv hnone
    refine ⟨?_, rfl⟩
    unfold register
    rw [hv, hnone]
    simp
  · intro c s bc cfg now sha env user hv hfind hbc henc
    refine ⟨?_, rfl⟩
    unfold login
    rw [hv, hfind]
    dsimp only
    rw [hbc]
    dsimp only
    unfold issue_tokens
    rw [henc]
    simp
  · intro c s bc cfg now sha env user hv hfind hbc
    refine ⟨?_, rfl⟩
    unfold login
    rw [hv, hfind]
    dsimp only
    rw [hbc]
    simp

/-- C8 witness for the amended claim, at concrete inputs. -/
theorem claim_C8_witness :
    register ⟨"a@x.com", "password123"⟩ (⟨[], []⟩ : Store) none 1 =
      (.error (.InternalServerError "Password hashing error"), (⟨[], []⟩ : Store)) ∧
    login ⟨"a@x.com", "password123"⟩ store1 (fun _ _ => some true) cfg0 50
      sha0 ⟨"n", "r", true, TxOutcome.allOk⟩ = (.error .JwtError, store1) ∧
    login ⟨"a@x.com", "password123"⟩ store1 (fun _ _ => none) cfg0 50
      sha0 env0 = (.error .PasswordError, store1) :=
  ⟨(claim_C8_amended.1 ⟨"a@x.com", "password123"⟩ ⟨[], []⟩ 1
      (by decide) (by decide)).1,
   (claim_C8_amended.2.1 ⟨"a@x.com", "password123"⟩ store1 (fun _ _ => some true)
      cfg0 50 sha0 ⟨"n", "r", true, TxOutcome.allOk⟩ user1
      (by decide) (by decide) (by decide) (by decide)).1,
   (claim_C8_amended.2.2 ⟨"a@x.com", "password123"⟩ store1 (fun _ _ => none)
      cfg0 50 sha0 env0 user1 (by decide) (by decide) (by decide)).1⟩

/-- C9: a register payload failing field validation (here: a password
shorter than 8 characters) produces `ValidationError`, which
`AppError::into_response` maps to status 400 Bad Request — not the 422
Unprocessable Entity announced by the spec, by the code's own utoipa
annotation, and by the repository's integration tests. -/
theorem claim_C9 :
    (register ⟨"another@user.com", "short"⟩ (⟨[], []⟩ : Store) (some "ph") 1).1 =
      .error .ValidationError ∧
    AppError.statusCode .ValidationError = 400 ∧
    AppError.statusCode .ValidationError ≠ 422 := by
  refine ⟨by decide, rfl, by decide⟩

end Cornerstone
